import Mathlib

set_option maxRecDepth 10000

/-- Bytes of a string literal, as natural numbers. -/
def strBytes (s : String) : List Nat := s.toList.map Char.toNat

/-- The standard base64 alphabet as byte values, mirroring the binascii
encoding table used by the b64encode call in xid_get_tid. -/
def b64chars : List Nat :=
  [65,66,67,68,69,70,71,72,73,74,75,76,77,78,79,80,81,82,83,84,85,86,87,88,89,90,
   97,98,99,100,101,102,103,104,105,106,107,108,109,110,111,112,113,114,115,116,
   117,118,119,120,121,122,
   48,49,50,51,52,53,54,55,56,57,43,47]

/-- Encoding table lookup: the alphabet byte for a 6-bit value. -/
def enc6 (v : Nat) : Nat := b64chars.getD v 0

/-- Index of a byte in a list, or none. -/
def findIdx6 : List Nat → Nat → Nat → Option Nat
  | [], _, _ => none
  | a :: rest, c, i => if a = c then some i else findIdx6 rest c (i + 1)

/-- Decoding table: 6-bit value of an alphabet byte, none when the byte is
not in the base64 alphabet (the pad byte 61 is handled separately by the
decode loop, as in binascii). -/
def dec6 (c : Nat) : Option Nat := findIdx6 b64chars c 0

/-- Base64 encoding of a byte string as computed by the b64encode function
the code calls: three input bytes become four alphabet bytes, a trailing
group of one or two bytes is padded with the pad byte 61. -/
def b64encode : List Nat → List Nat
  | [] => []
  | [a] => [enc6 (a / 4), enc6 (a % 4 * 16), 61, 61]
  | [a, b] => [enc6 (a / 4), enc6 (a % 4 * 16 + b / 16), enc6 (b % 16 * 4), 61]
  | a :: b :: c :: rest =>
      enc6 (a / 4) :: enc6 (a % 4 * 16 + b / 16) :: enc6 (b % 16 * 4 + c / 64)
        :: enc6 (c % 64) :: b64encode rest

/-- First byte of the list that the binascii decoder considers valid
(alphabet byte or the pad byte 61), used by the pad lookahead. -/
def findValid1 : List Nat → Option Nat
  | [] => none
  | c :: rest =>
      if c ≤ 127 ∧ (c = 61 ∨ (dec6 c).isSome) then some c else findValid1 rest

/-- The decoding loop of the b64decode function the code calls, with the
accumulated quad position, pending bit register, pending bit count and
output (in reverse).  Bytes above 127 and whitespace are skipped, bytes
outside the alphabet are skipped, a pad byte terminates the quad when it
is in a valid pad position, and decoding fails exactly when data bits are
left over at the end (incorrect padding). -/
def a2bLoop : List Nat → Nat → Nat → Nat → List Nat → Option (List Nat)
  | [], _, _, leftbits, acc => if leftbits ≠ 0 then none else some acc.reverse
  | c :: rest, quadPos, leftchar, leftbits, acc =>
      if 127 < c ∨ c = 13 ∨ c = 10 ∨ c = 32 then
        a2bLoop rest quadPos leftchar leftbits acc
      else if c = 61 then
        if quadPos < 2 ∨ (quadPos = 2 ∧ findValid1 rest ≠ some 61) then
          a2bLoop rest quadPos leftchar leftbits acc
        else some acc.reverse
      else
        match dec6 c with
        | none => a2bLoop rest quadPos leftchar leftbits acc
        | some v =>
            if 8 ≤ leftbits + 6 then
              a2bLoop rest ((quadPos + 1) % 4)
                ((leftchar * 64 + v) % 2 ^ (leftbits + 6 - 8)) (leftbits + 6 - 8)
                ((leftchar * 64 + v) / 2 ^ (leftbits + 6 - 8) % 256 :: acc)
            else
              a2bLoop rest ((quadPos + 1) % 4) (leftchar * 64 + v) (leftbits + 6) acc

/-- Base64 decoding as performed by the b64decode function the code calls:
none when decoding raises (incorrect padding), otherwise the decoded
bytes. -/
def b64decode (s : List Nat) : Option (List Nat) := a2bLoop s 0 0 0 []

/-- Decimal digit byte test, as the regex digit class. -/
def isDigitB (b : Nat) : Bool := decide (48 ≤ b) && decide (b ≤ 57)

/-- Auxiliary decimal printer accumulating least significant digits; the
first argument is fuel bounding the number of digits. -/
def decDigitsAux : Nat → Nat → List Nat → List Nat
  | 0, _, acc => acc
  | _ + 1, 0, acc => acc
  | fuel + 1, n + 1, acc => decDigitsAux fuel ((n + 1) / 10) (((n + 1) % 10 + 48) :: acc)

/-- Decimal digit bytes of a natural number, most significant first. -/
def decDigits (n : Nat) : List Nat := if n = 0 then [48] else decDigitsAux n n []

/-- Decimal rendering of an integer as byte string. -/
def intDec (i : Int) : List Nat :=
  if i < 0 then 45 :: decDigits i.natAbs else decDigits i.toNat

/-- Numeric value of a decimal digit byte string. -/
def decVal (ds : List Nat) : Nat := ds.foldl (fun a d => a * 10 + (d - 48)) 0

/-- A byte viewed as a signed char, as in the validation loop of
xid_init where the component pointer has type pointer to char. -/
def sChar (b : Nat) : Int := if b < 128 then (b : Int) else (b : Int) - 256

/-- The per-byte rejection test of xid_init: the byte, read as a signed
char, is below 0x20 or at least 0x7f. -/
def charBad (b : Nat) : Bool := decide (sChar b < 32) || decide (127 ≤ sChar b)

/-- The Xid object: the XA triple plus the recovery metadata fields.
format_id is none for an unparsed xid, bqual is none for an unparsed
xid, and the metadata fields are none until xid_recover fills them. -/
structure Xid where
  format_id : Option Int
  gtrid : List Nat
  bqual : Option (List Nat)
  prepared : Option (List Nat)
  owner : Option (List Nat)
  database : Option (List Nat)
deriving DecidableEq

/-- The distinct failures of constructing a Xid from a triple: the two
argument-conversion failures of the iss format (integer out of C int
range, embedded NUL byte in a string argument) and the four explicit
ValueError checks of xid_init. -/
inductive InitError where
  | overflowError
  | nulByteError
  | invalidFormatId
  | gtridTooLong
  | gtridNotPrintable
  | bqualTooLong
  | bqualNotPrintable
deriving DecidableEq

/-- Construction of a Xid from a triple, following xid_init: argument
parsing with the iss format first (C int range check on format_id, NUL
byte check on the string arguments), then the explicit range check on
format_id, then length and printability checks on gtrid and bqual. -/
def xid_init (format_id : Int) (gtrid bqual : List Nat) : Except InitError Xid :=
  if format_id < -(2 ^ 31) ∨ 2 ^ 31 - 1 < format_id then .error .overflowError
  else if 0 ∈ gtrid ∨ 0 ∈ bqual then .error .nulByteError
  else if format_id < 0 ∨ 0x7fffffff < format_id then .error .invalidFormatId
  else if 64 < gtrid.length then .error .gtridTooLong
  else if gtrid.any charBad then .error .gtridNotPrintable
  else if 64 < bqual.length then .error .bqualTooLong
  else if bqual.any charBad then .error .bqualNotPrintable
  else .ok { format_id := some format_id, gtrid := gtrid, bqual := some bqual,
             prepared := none, owner := none, database := none }

/-- The transaction id string of a Xid, following xid_get_tid: the raw
gtrid for an unparsed xid, otherwise the decimal format_id and the two
base64-encoded components joined by underscore bytes.  none models the
failure when a structured xid lacks a bqual string. -/
def xid_get_tid (x : Xid) : Option (List Nat) :=
  match x.format_id with
  | none => some x.gtrid
  | some fid =>
      match x.bqual with
      | none => none
      | some bq => some (intDec fid ++ 95 :: (b64encode x.gtrid ++ 95 :: b64encode bq))

/-- Decomposition of a byte string by the parse regex: a nonempty decimal
prefix, an underscore, and two underscore-free fields separated by one
underscore, reaching the end of the string. -/
def xidMatch (s : List Nat) : Option (List Nat × List Nat × List Nat) :=
  let ds := s.takeWhile isDigitB
  if ds.isEmpty then none
  else
    match s.drop ds.length with
    | 95 :: rest =>
        if rest.count 95 = 1 then
          some (ds, rest.takeWhile (fun c => c ≠ 95),
                (rest.dropWhile (fun c => c ≠ 95)).drop 1)
        else none
    | _ => none

/-- The structured parse of _xid_parse_string: match the regex, take the
decimal value of the first field, base64-decode the other two, and build
the Xid through xid_init; none when any step fails. -/
def _xid_parse_string (s : List Nat) : Option Xid :=
  match xidMatch s with
  | none => none
  | some (ds, egtrid, ebqual) =>
      match b64decode egtrid with
      | none => none
      | some gtrid =>
          match b64decode ebqual with
          | none => none
          | some bqual =>
              match xid_init (Int.ofNat (decVal ds)) gtrid bqual with
              | .error _ => none
              | .ok x => some x

/-- The unparsed fallback of _xid_unparsed_from_string: a Xid whose gtrid
is the whole input string, with format_id and bqual set to none. -/
def _xid_unparsed_from_string (s : List Nat) : Xid :=
  { format_id := none, gtrid := s, bqual := none,
    prepared := none, owner := none, database := none }

/-- xid_from_string: the structured parse when it succeeds, the unparsed
fallback otherwise. -/
def xid_from_string (s : List Nat) : Xid :=
  match _xid_parse_string s with
  | some x => x
  | none => _xid_unparsed_from_string s

/-- The sequence length of a Xid, following xid_len. -/
def xid_len (_ : Xid) : Nat := 3

/-- A Python-level attribute value: None, an integer or a string. -/
inductive PyVal where
  | vNone
  | vInt (i : Int)
  | vStr (s : List Nat)
deriving DecidableEq

/-- The format_id attribute as a Python value. -/
def Xid.pyFormatId (x : Xid) : PyVal :=
  match x.format_id with
  | none => .vNone
  | some i => .vInt i

/-- The gtrid attribute as a Python value. -/
def Xid.pyGtrid (x : Xid) : PyVal := .vStr x.gtrid

/-- The bqual attribute as a Python value. -/
def Xid.pyBqual (x : Xid) : PyVal :=
  match x.bqual with
  | none => .vNone
  | some s => .vStr s

/-- Item access on a Xid, following xid_getitem: a negative index has the
length 3 added once, indices 0, 1 and 2 return the triple members, and
everything else is an index error (none). -/
def xid_getitem (x : Xid) (item : Int) : Option PyVal :=
  let i := if item < 0 then item + 3 else item
  if i = 0 then some x.pyFormatId
  else if i = 1 then some x.pyGtrid
  else if i = 2 then some x.pyBqual
  else none

/-- The member table of the Xid type: each attribute name with its
read-only flag, following xid_members where every entry carries RO. -/
def xid_members : List (List Nat × Bool) :=
  [(strBytes "format_id", true), (strBytes "gtrid", true), (strBytes "bqual", true),
   (strBytes "prepared", true), (strBytes "owner", true), (strBytes "database", true)]

/-- Well-formedness of one XA component, as enforced by xid_init: at most
64 bytes, all in the printable range. -/
def validComp (s : List Nat) : Prop := s.length ≤ 64 ∧ ∀ c ∈ s, 32 ≤ c ∧ c < 127

instance : DecidablePred validComp := fun s => by
  unfold validComp; infer_instance

deriving instance DecidableEq for Except

/-- The collaborator calls xid_recover makes on the cursor object. -/
inductive REvent where
  | cursor
  | execute (sql : List Nat)
  | fetchall
  | close
deriving DecidableEq

/-- Behaviour of the connection and cursor collaborator: whether cursor
creation, execute and close succeed, and the rows fetchall returns (none
when fetchall raises).  Rows are sequences of string columns. -/
structure Conn where
  cursorOk : Bool
  executeOk : Bool
  fetchRes : Option (List (List (List Nat)))
  closeOk : Bool

/-- The recovery query issued by xid_recover. -/
def recoverQuery : List Nat :=
  strBytes "SELECT gid, prepared, owner, database FROM pg_prepared_xacts;"

/-- The row loop of xid_recover: for each row take columns 0 to 3, build
the xid from column 0 and attach the other columns as prepared, owner and
database; a missing column aborts the whole call. -/
def xid_recover_rows : List (List (List Nat)) → Option (List Xid)
  | [] => some []
  | rec :: rest =>
      match rec.get? 0, rec.get? 1, rec.get? 2, rec.get? 3 with
      | some gid, some prep, some own, some db =>
          match xid_recover_rows rest with
          | none => none
          | some xs =>
              some ({ xid_from_string gid with
                        prepared := some prep, owner := some own, database := some db } :: xs)
      | _, _, _, _ => none

/-- The Xid produced for one well-formed row. -/
def rowXid (rec : List (List Nat)) : Xid :=
  { xid_from_string (rec.getD 0 []) with
      prepared := some (rec.getD 1 []), owner := some (rec.getD 2 []),
      database := some (rec.getD 3 []) }

/-- xid_recover: create a cursor, execute the recovery query, fetch all
rows, close the cursor, then build one Xid per row; the second component
is the trace of collaborator calls made, in order. -/
def xid_recover (c : Conn) : Option (List Xid) × List REvent :=
  if ¬ c.cursorOk then (none, [.cursor])
  else if ¬ c.executeOk then (none, [.cursor, .execute recoverQuery])
  else
    match c.fetchRes with
    | none => (none, [.cursor, .execute recoverQuery, .fetchall])
    | some recs =>
        if ¬ c.closeOk then (none, [.cursor, .execute recoverQuery, .fetchall, .close])
        else (xid_recover_rows recs, [.cursor, .execute recoverQuery, .fetchall, .close])

lemma charBad_eq_false {c : Nat} (h1 : 32 ≤ c) (h2 : c < 127) : charBad c = false := by
  simp only [charBad, sChar, if_pos (by omega : c < 128), Bool.or_eq_false_iff,
    decide_eq_false_iff_not]
  omega

lemma charBad_eq_true {c : Nat} (h256 : c < 256) (h : ¬ (32 ≤ c ∧ c < 127)) :
    charBad c = true := by
  simp only [charBad, sChar, Bool.or_eq_true, decide_eq_true_eq]
  by_cases hc : c < 128
  · rw [if_pos hc]; omega
  · rw [if_neg hc]; omega

lemma any_charBad_false {s : List Nat} (h : ∀ c ∈ s, 32 ≤ c ∧ c < 127) :
    s.any charBad = false := by
  rw [← Bool.not_eq_true, List.any_eq_true]
  rintro ⟨c, hc, hbad⟩
  rw [charBad_eq_false (h c hc).1 (h c hc).2] at hbad
  exact Bool.false_ne_true hbad

lemma xid_init_ok (fid : Int) (g b : List Nat) (h0 : 0 ≤ fid) (h1 : fid ≤ 0x7fffffff)
    (hg : validComp g) (hb : validComp b) :
    xid_init fid g b =
      Except.ok { format_id := some fid, gtrid := g, bqual := some b,
                  prepared := none, owner := none, database := none } := by
  obtain ⟨hgl, hgc⟩ := hg
  obtain ⟨hbl, hbc⟩ := hb
  have hg0 : 0 ∉ g := fun hm => by have := hgc 0 hm; omega
  have hb0 : 0 ∉ b := fun hm => by have := hbc 0 hm; omega
  have hmax : (0x7fffffff : Int) = 2 ^ 31 - 1 := by norm_num
  rw [hmax] at h1
  unfold xid_init
  rw [if_neg (by push_neg; exact ⟨by omega, by omega⟩),
      if_neg (by simp [hg0, hb0]),
      if_neg (by push_neg; exact ⟨h0, by omega⟩),
      if_neg (by omega),
      if_neg (by simp [any_charBad_false hgc]),
      if_neg (by omega),
      if_neg (by simp [any_charBad_false hbc])]

lemma decDigitsAux_acc : ∀ (fuel n : Nat) (acc : List Nat),
    decDigitsAux fuel n acc = decDigitsAux fuel n [] ++ acc := by
  intro fuel
  induction fuel with
  | zero => intro n acc; rfl
  | succ f ih =>
    intro n acc
    match n with
    | 0 => rfl
    | m + 1 =>
      simp only [decDigitsAux]
      rw [ih ((m + 1) / 10) (((m + 1) % 10 + 48) :: acc),
          ih ((m + 1) / 10) [(m + 1) % 10 + 48]]
      simp

lemma decDigitsAux_mem : ∀ (fuel n : Nat), ∀ c ∈ decDigitsAux fuel n [], 48 ≤ c ∧ c ≤ 57 := by
  intro fuel
  induction fuel with
  | zero => intro n c hc; cases hc
  | succ f ih =>
    intro n c hc
    match n with
    | 0 => cases hc
    | m + 1 =>
      simp only [decDigitsAux] at hc
      rw [decDigitsAux_acc] at hc
      rcases List.mem_append.1 hc with h | h
      · exact ih ((m + 1) / 10) c h
      · have : c = (m + 1) % 10 + 48 := by simpa using h
        have hm : (m + 1) % 10 < 10 := Nat.mod_lt _ (by norm_num)
        omega

lemma decDigits_mem (n : Nat) : ∀ c ∈ decDigits n, 48 ≤ c ∧ c ≤ 57 := by
  unfold decDigits
  split
  · intro c hc; have : c = 48 := by simpa using hc
    omega
  · exact decDigitsAux_mem n n

lemma decDigits_ne_nil (n : Nat) : decDigits n ≠ [] := by
  unfold decDigits
  split
  · simp
  · match n with
    | 0 => simp_all
    | m + 1 =>
      simp only [decDigitsAux]
      rw [decDigitsAux_acc]
      simp

lemma decVal_append_digit (xs : List Nat) (d : Nat) :
    decVal (xs ++ [d]) = decVal xs * 10 + (d - 48) := by
  simp [decVal, List.foldl_append]

lemma decVal_decDigitsAux : ∀ (fuel n : Nat), n ≤ fuel → decVal (decDigitsAux fuel n []) = n := by
  intro fuel
  induction fuel with
  | zero => intro n hn; interval_cases n; rfl
  | succ f ih =>
    intro n hn
    match n with
    | 0 => rfl
    | m + 1 =>
      have hlt : (m + 1) / 10 ≤ f := by
        have := Nat.div_lt_self (Nat.succ_pos m) (show 1 < 10 by norm_num)
        omega
      simp only [decDigitsAux]
      rw [decDigitsAux_acc, decVal_append_digit, ih ((m + 1) / 10) hlt]
      omega

lemma decVal_decDigits (n : Nat) : decVal (decDigits n) = n := by
  unfold decDigits
  split
  · simp_all [decVal]
  · exact decVal_decDigitsAux n n le_rfl

lemma takeWhile_append_stop {p : Nat → Bool} (xs : List Nat) (y : Nat) (ys : List Nat)
    (hxs : ∀ x ∈ xs, p x = true) (hy : p y = false) :
    (xs ++ y :: ys).takeWhile p = xs := by
  induction xs with
  | nil => simp [List.takeWhile_cons, hy]
  | cons x xs ih =>
    simp only [List.cons_append, List.takeWhile_cons, hxs x (by simp), if_true]
    rw [ih (fun a ha => hxs a (by simp [ha]))]

lemma dropWhile_append_stop {p : Nat → Bool} (xs : List Nat) (y : Nat) (ys : List Nat)
    (hxs : ∀ x ∈ xs, p x = true) (hy : p y = false) :
    (xs ++ y :: ys).dropWhile p = y :: ys := by
  induction xs with
  | nil => simp [List.dropWhile_cons, hy]
  | cons x xs ih =>
    simp only [List.cons_append, List.dropWhile_cons, hxs x (by simp), if_true]
    exact ih (fun a ha => hxs a (by simp [ha]))

lemma count_middle_one (xs : List Nat) (y : Nat) (ys : List Nat)
    (hx : y ∉ xs) (hy : y ∉ ys) : (xs ++ y :: ys).count y = 1 := by
  simp [List.count_append, List.count_cons_self, List.count_eq_zero.mpr hx,
        List.count_eq_zero.mpr hy]

lemma alphabet_props : ∀ v, v < 64 →
    dec6 (enc6 v) = some v ∧ enc6 v ≤ 127 ∧ enc6 v ≠ 61 ∧ enc6 v ≠ 13 ∧
    enc6 v ≠ 10 ∧ enc6 v ≠ 32 ∧ enc6 v ≠ 95 := by decide

lemma b64encode_chars (s : List Nat) (hs : ∀ x ∈ s, x < 256) :
    ∀ c ∈ b64encode s, c = 61 ∨ ∃ v, v < 64 ∧ c = enc6 v := by
  induction s using b64encode.induct with
  | case1 => simp [b64encode]
  | case2 a =>
    have ha : a < 256 := hs a (by simp)
    intro c hc
    simp only [b64encode, List.mem_cons, List.mem_singleton] at hc
    rcases hc with rfl | rfl | rfl | h
    · exact Or.inr ⟨a / 4, by omega, rfl⟩
    · exact Or.inr ⟨a % 4 * 16, by omega, rfl⟩
    · exact Or.inl rfl
    · simp at h; subst h; exact Or.inl rfl
  | case3 a b =>
    have ha : a < 256 := hs a (by simp)
    have hb : b < 256 := hs b (by simp)
    intro c hc
    simp only [b64encode, List.mem_cons, List.mem_singleton] at hc
    rcases hc with rfl | rfl | rfl | h
    · exact Or.inr ⟨a / 4, by omega, rfl⟩
    · exact Or.inr ⟨a % 4 * 16 + b / 16, by omega, rfl⟩
    · exact Or.inr ⟨b % 16 * 4, by omega, rfl⟩
    · simp at h; subst h; exact Or.inl rfl
  | case4 a b c rest ih =>
    have ha : a < 256 := hs a (by simp)
    have hb : b < 256 := hs b (by simp)
    have hc256 : c < 256 := hs c (by simp)
    intro d hd
    simp only [b64encode, List.mem_cons] at hd
    rcases hd with rfl | rfl | rfl | rfl | h
    · exact Or.inr ⟨a / 4, by omega, rfl⟩
    · exact Or.inr ⟨a % 4 * 16 + b / 16, by omega, rfl⟩
    · exact Or.inr ⟨b % 16 * 4 + c / 64, by omega, rfl⟩
    · exact Or.inr ⟨c % 64, by omega, rfl⟩
    · exact ih (fun x hx => hs x (by simp [hx])) d h

lemma b64encode_ne_95 (s : List Nat) (hs : ∀ x ∈ s, x < 256) :
    ∀ c ∈ b64encode s, c ≠ 95 := by
  intro c hc
  rcases b64encode_chars s hs c hc with rfl | ⟨v, hv, rfl⟩
  · omega
  · exact (alphabet_props v hv).2.2.2.2.2.2

lemma a2bLoop_enc6 (v : Nat) (hv : v < 64) (rest : List Nat) (qp lc lb : Nat)
    (acc : List Nat) :
    a2bLoop (enc6 v :: rest) qp lc lb acc =
      if 8 ≤ lb + 6 then
        a2bLoop rest ((qp + 1) % 4) ((lc * 64 + v) % 2 ^ (lb + 6 - 8)) (lb + 6 - 8)
          ((lc * 64 + v) / 2 ^ (lb + 6 - 8) % 256 :: acc)
      else a2bLoop rest ((qp + 1) % 4) (lc * 64 + v) (lb + 6) acc := by
  obtain ⟨hd, h127, h61, h13, h10, h32, -⟩ := alphabet_props v hv
  simp only [a2bLoop, hd]
  rw [if_neg (by push_neg; exact ⟨by omega, h13, h10, h32⟩), if_neg h61]

lemma a2bLoop_pad2 (rest : List Nat) (lc lb : Nat) (acc : List Nat)
    (h : findValid1 rest = some 61) :
    a2bLoop (61 :: rest) 2 lc lb acc = some acc.reverse := by
  simp only [a2bLoop]
  rw [if_neg (by norm_num)]
  simp [h]

lemma a2bLoop_pad3 (rest : List Nat) (lc lb : Nat) (acc : List Nat) :
    a2bLoop (61 :: rest) 3 lc lb acc = some acc.reverse := by
  simp only [a2bLoop]
  rw [if_neg (by norm_num)]
  norm_num

lemma a2bLoop_quad (a b c : Nat) (ha : a < 256) (hb : b < 256) (hc : c < 256)
    (rest : List Nat) (acc : List Nat) :
    a2bLoop (enc6 (a / 4) :: enc6 (a % 4 * 16 + b / 16) :: enc6 (b % 16 * 4 + c / 64)
        :: enc6 (c % 64) :: rest) 0 0 0 acc =
      a2bLoop rest 0 0 0 (c :: b :: a :: acc) := by
  rw [a2bLoop_enc6 (a / 4) (by omega)]
  norm_num
  rw [a2bLoop_enc6 (a % 4 * 16 + b / 16) (by omega)]
  norm_num
  rw [a2bLoop_enc6 (b % 16 * 4 + c / 64) (by omega)]
  norm_num
  rw [a2bLoop_enc6 (c % 64) (by omega)]
  norm_num
  congr 1
  · omega
  · congr 1 <;> [skip; congr 1] <;> [omega; omega; skip]
    congr 1
    omega

lemma a2bLoop_tail1 (a : Nat) (ha : a < 256) (acc : List Nat) :
    a2bLoop [enc6 (a / 4), enc6 (a % 4 * 16), 61, 61] 0 0 0 acc =
      some (acc.reverse ++ [a]) := by
  rw [a2bLoop_enc6 (a / 4) (by omega)]
  norm_num
  rw [a2bLoop_enc6 (a % 4 * 16) (by omega)]
  norm_num
  rw [a2bLoop_pad2 [61] _ _ _ (by decide)]
  have : (a / 4 * 64 + a % 4 * 16) / 16 % 256 = a := by omega
  rw [this, List.reverse_cons]

lemma a2bLoop_tail2 (a b : Nat) (ha : a < 256) (hb : b < 256) (acc : List Nat) :
    a2bLoop [enc6 (a / 4), enc6 (a % 4 * 16 + b / 16), enc6 (b % 16 * 4), 61] 0 0 0 acc =
      some (acc.reverse ++ [a, b]) := by
  rw [a2bLoop_enc6 (a / 4) (by omega)]
  norm_num
  rw [a2bLoop_enc6 (a % 4 * 16 + b / 16) (by omega)]
  norm_num
  rw [a2bLoop_enc6 (b % 16 * 4) (by omega)]
  norm_num
  rw [a2bLoop_pad3]
  have h1 : (a / 4 * 64 + (a % 4 * 16 + b / 16)) / 16 % 256 = a := by omega
  have h2 : ((a / 4 * 64 + (a % 4 * 16 + b / 16)) % 16 * 64 + b % 16 * 4) / 4 % 256 = b := by
    omega
  rw [h1, h2]
  simp

lemma a2b_encode : ∀ (s : List Nat) (acc : List Nat), (∀ x ∈ s, x < 256) →
    a2bLoop (b64encode s) 0 0 0 acc = some (acc.reverse ++ s) := by
  intro s
  induction s using b64encode.induct with
  | case1 => intro acc _; simp [b64encode, a2bLoop]
  | case2 a =>
    intro acc h
    simp only [b64encode]
    exact a2bLoop_tail1 a (h a (by simp)) acc
  | case3 a b =>
    intro acc h
    simp only [b64encode]
    exact a2bLoop_tail2 a b (h a (by simp)) (h b (by simp)) acc
  | case4 a b c rest ih =>
    intro acc h
    simp only [b64encode]
    rw [a2bLoop_quad a b c (h a (by simp)) (h b (by simp)) (h c (by simp))]
    rw [ih _ (fun x hx => h x (by simp [hx]))]
    simp

lemma b64_roundtrip (s : List Nat) (h : ∀ x ∈ s, x < 256) :
    b64decode (b64encode s) = some s := by
  unfold b64decode
  rw [a2b_encode s [] h]
  rfl

lemma isDigitB_95 : isDigitB 95 = false := by decide

lemma xidMatch_encode (n : Nat) (eg eb : List Nat)
    (hg : ∀ c ∈ eg, c ≠ 95) (hb : ∀ c ∈ eb, c ≠ 95) :
    xidMatch (decDigits n ++ 95 :: (eg ++ 95 :: eb)) = some (decDigits n, eg, eb) := by
  have hds : ∀ c ∈ decDigits n, isDigitB c = true := by
    intro c hc
    have := decDigits_mem n c hc
    simp [isDigitB]
    omega
  have htake : (decDigits n ++ 95 :: (eg ++ 95 :: eb)).takeWhile isDigitB = decDigits n :=
    takeWhile_append_stop _ _ _ hds isDigitB_95
  have h95g : (95 : Nat) ∉ eg := fun hm => hg 95 hm rfl
  have h95b : (95 : Nat) ∉ eb := fun hm => hb 95 hm rfl
  have hcount : (eg ++ 95 :: eb).count 95 = 1 := count_middle_one _ _ _ h95g h95b
  have hpg : ∀ c ∈ eg, (fun c => decide ¬(c = 95)) c = true := by
    intro c hc; simpa using hg c hc
  have htk : (eg ++ 95 :: eb).takeWhile (fun c => decide ¬(c = 95)) = eg :=
    takeWhile_append_stop _ _ _ hpg (by simp)
  have hdw : (eg ++ 95 :: eb).dropWhile (fun c => decide ¬(c = 95)) = 95 :: eb :=
    dropWhile_append_stop _ _ _ hpg (by simp)
  unfold xidMatch
  simp only [htake]
  rw [if_neg (by simp [decDigits_ne_nil n])]
  rw [List.drop_left]
  simp only [hcount, if_pos rfl]
  rw [htk, hdw]
  simp

lemma parse_of_encode (fid : Int) (g b : List Nat) (h0 : 0 ≤ fid) (h1 : fid ≤ 0x7fffffff)
    (hg : validComp g) (hb : validComp b) :
    _xid_parse_string (decDigits fid.toNat ++ 95 :: (b64encode g ++ 95 :: b64encode b)) =
      some { format_id := some fid, gtrid := g, bqual := some b,
             prepared := none, owner := none, database := none } := by
  have hg256 : ∀ x ∈ g, x < 256 := fun x hx => by have := hg.2 x hx; omega
  have hb256 : ∀ x ∈ b, x < 256 := fun x hx => by have := hb.2 x hx; omega
  unfold _xid_parse_string
  rw [xidMatch_encode fid.toNat (b64encode g) (b64encode b)
        (b64encode_ne_95 g hg256) (b64encode_ne_95 b hb256)]
  simp only [b64_roundtrip g hg256, b64_roundtrip b hb256]
  rw [decVal_decDigits]
  have hcast : Int.ofNat fid.toNat = fid := by
    rw [Int.ofNat_eq_coe]
    exact Int.toNat_of_nonneg h0
  rw [hcast, xid_init_ok fid g b h0 h1 hg hb]

/-- C1: for every valid triple (format_id in the 31-bit range, components
at most 64 printable bytes), constructing the Xid succeeds, xid_get_tid
produces a wire string, and xid_from_string on that wire string returns a
Xid with the same format_id, gtrid and bqual. -/
theorem c1_round_trip (fid : Int) (g b : List Nat)
    (h0 : 0 ≤ fid) (h1 : fid ≤ 0x7fffffff) (hg : validComp g) (hb : validComp b) :
    ∃ x t, xid_init fid g b = Except.ok x ∧ xid_get_tid x = some t ∧
      xid_from_string t = x := by
  refine ⟨_, _, xid_init_ok fid g b h0 h1 hg hb, rfl, ?_⟩
  show xid_from_string (intDec fid ++ 95 :: (b64encode g ++ 95 :: b64encode b)) = _
  have hdec : intDec fid = decDigits fid.toNat := if_neg (by omega)
  rw [hdec]
  unfold xid_from_string
  rw [parse_of_encode fid g b h0 h1 hg hb]

/-- Witness for C1 at the concrete triple (1, abc, xyz). -/
theorem c1_round_trip_witness :
    ∃ x t, xid_init 1 (strBytes "abc") (strBytes "xyz") = Except.ok x ∧
      xid_get_tid x = some t ∧ xid_from_string t = x :=
  c1_round_trip 1 (strBytes "abc") (strBytes "xyz") (by norm_num) (by norm_num)
    (by decide) (by decide)

/-- C2: xid_from_string is total, and whenever the structured parse does
not succeed it returns the unparsed Xid whose gtrid is exactly the input
string, with format_id and bqual absent. -/
theorem c2_unparsed_fallback (s : List Nat) (h : _xid_parse_string s = none) :
    xid_from_string s = _xid_unparsed_from_string s ∧
    (xid_from_string s).gtrid = s ∧
    (xid_from_string s).format_id = none ∧
    (xid_from_string s).bqual = none := by
  unfold xid_from_string
  rw [h]
  exact ⟨rfl, rfl, rfl, rfl⟩

/-- Witness for C2 at a string with three underscore fields whose first
field is not decimal. -/
theorem c2_unparsed_fallback_witness :
    xid_from_string (strBytes "some_random_prepared_name") =
      _xid_unparsed_from_string (strBytes "some_random_prepared_name") ∧
    (xid_from_string (strBytes "some_random_prepared_name")).gtrid =
      strBytes "some_random_prepared_name" ∧
    (xid_from_string (strBytes "some_random_prepared_name")).format_id = none ∧
    (xid_from_string (strBytes "some_random_prepared_name")).bqual = none :=
  c2_unparsed_fallback (strBytes "some_random_prepared_name") (by decide)

/-- C3 counterexample: the string 1_%%%_eHl6 does not fall back to the
unparsed form; the percent bytes are discarded by the base64 decoder, so
the structured parse succeeds with an empty gtrid. -/
theorem c3_counterexample :
    xid_from_string (strBytes "1_%%%_eHl6") =
      { format_id := some 1, gtrid := [], bqual := some (strBytes "xyz"),
        prepared := none, owner := none, database := none } ∧
    xid_from_string (strBytes "1_%%%_eHl6") ≠
      _xid_unparsed_from_string (strBytes "1_%%%_eHl6") ∧
    (xid_from_string (strBytes "1_%%%_eHl6")).format_id ≠ none ∧
    (xid_from_string (strBytes "1_%%%_eHl6")).gtrid ≠ strBytes "1_%%%_eHl6" := by
  refine ⟨by decide, by decide, by decide, by decide⟩

/-- C3 amended: when the structured pattern matches but a base64 decode
fails, or the decoded triple fails any construction check, xid_from_string
returns the unparsed fallback; the base64 decoder however discards bytes
outside its alphabet rather than failing on them, so 1_A_eHl6 (incorrect
padding) falls back while 1_%%%_eHl6 parses as the structured triple
(1, empty gtrid, xyz). -/
theorem c3_lenient_decode :
    (∀ s ds eg eb, xidMatch s = some (ds, eg, eb) →
      (b64decode eg = none ∨ b64decode eb = none ∨
        (∃ g b e, b64decode eg = some g ∧ b64decode eb = some b ∧
          xid_init (Int.ofNat (decVal ds)) g b = Except.error e)) →
      xid_from_string s = _xid_unparsed_from_string s) ∧
    xid_from_string (strBytes "1_A_eHl6") =
      _xid_unparsed_from_string (strBytes "1_A_eHl6") ∧
    (xid_from_string (strBytes "1_%%%_eHl6")).format_id = some 1 := by
  refine ⟨?_, by decide, by decide⟩
  intro s ds eg eb hm hfail
  unfold xid_from_string _xid_parse_string
  rcases hfail with hg | hb | ⟨g, b, e, hg, hb, he⟩
  · simp only [hm, hg]
  · rcases hdg : b64decode eg with _ | g
    · simp only [hm, hdg]
    · simp only [hm, hdg, hb]
  · simp only [hm, hg, hb, he]

/-- Witness for C3 amended, applying the general fallback clause at the
concrete input 1_A_eHl6 whose middle field has incorrect padding. -/
theorem c3_lenient_decode_witness :
    xid_from_string (strBytes "1_A_eHl6") =
      _xid_unparsed_from_string (strBytes "1_A_eHl6") :=
  c3_lenient_decode.1 (strBytes "1_A_eHl6") (strBytes "1") (strBytes "A")
    (strBytes "eHl6") (by decide) (Or.inl (by decide))

/-- C4: xid_get_tid returns the raw gtrid when format_id is absent, and
otherwise the decimal format_id and the base64 encodings of gtrid and
bqual joined by underscores; on the triple (1, abc, xyz) this yields
1_YWJj_eHl6. -/
theorem c4_encode_shape :
    (∀ x : Xid, x.format_id = none → xid_get_tid x = some x.gtrid) ∧
    (∀ (x : Xid) (fid : Int) (bq : List Nat), x.format_id = some fid → x.bqual = some bq →
      xid_get_tid x = some (intDec fid ++ 95 :: (b64encode x.gtrid ++ 95 :: b64encode bq))) ∧
    xid_get_tid { format_id := some 1, gtrid := strBytes "abc", bqual := some (strBytes "xyz"),
                  prepared := none, owner := none, database := none } =
      some (strBytes "1_YWJj_eHl6") := by
  refine ⟨?_, ?_, by decide⟩
  · intro x h
    unfold xid_get_tid
    rw [h]
  · intro x fid bq h1 h2
    unfold xid_get_tid
    rw [h1, h2]

/-- Witness for C4 at a concrete unparsed Xid. -/
theorem c4_encode_shape_witness :
    xid_get_tid { format_id := none, gtrid := strBytes "foo", bqual := none,
                  prepared := none, owner := none, database := none } =
      some (strBytes "foo") :=
  c4_encode_shape.1 _ rfl

/-- C5 counterexample: format_id 0x80000000 is outside the C int range,
so argument conversion fails with an overflow error before the explicit
format_id range check; the failure is not the InvalidFormatId ValueError
the claim names. -/
theorem c5_counterexample :
    xid_init 0x80000000 (strBytes "gtrid") (strBytes "bqual") =
      Except.error InitError.overflowError ∧
    xid_init 0x80000000 (strBytes "gtrid") (strBytes "bqual") ≠
      Except.error InitError.invalidFormatId := by
  refine ⟨by decide, by decide⟩

/-- C5 amended: for NUL-free components, construction fails exactly when
format_id is outside the 31-bit range; the failure is InvalidFormatId for
out-of-range values inside the C int range (such as -1) and an overflow
error from argument conversion for values outside it (such as
0x80000000), and conversely InvalidFormatId arises only for out-of-range
format_id. -/
theorem c5_format_id_errors (fid : Int) (g b : List Nat)
    (hg : (0 : Nat) ∉ g) (hb : (0 : Nat) ∉ b) :
    ((fid < 0 ∨ 0x7fffffff < fid) →
      xid_init fid g b =
        Except.error (if fid < -(2 ^ 31) ∨ 2 ^ 31 - 1 < fid then InitError.overflowError
                      else InitError.invalidFormatId)) ∧
    (xid_init fid g b = Except.error InitError.invalidFormatId →
      (fid < 0 ∨ 0x7fffffff < fid)) := by
  constructor
  · intro h
    unfold xid_init
    by_cases hov : fid < -(2 ^ 31) ∨ 2 ^ 31 - 1 < fid
    · rw [if_pos hov, if_pos hov]
    · rw [if_neg hov, if_neg hov, if_neg (by simp [hg, hb]), if_pos h]
  · intro h
    unfold xid_init at h
    split_ifs at h <;> simp_all

/-- Witness for C5 amended at format_id -1, which fails with
InvalidFormatId. -/
theorem c5_format_id_errors_witness :
    xid_init (-1) [] [] = Except.error InitError.invalidFormatId := by
  have h := (c5_format_id_errors (-1) [] [] (by simp) (by simp)).1 (by norm_num)
  simpa using h

/-- C6 counterexample: the NUL byte 0 lies outside the printable range
[0x20, 0x7f), yet a component containing it fails with the NUL-byte
TypeError from argument conversion, not with the printable-characters
ValueError. -/
theorem c6_counterexample :
    ¬ (32 ≤ 0 ∧ 0 < 127) ∧
    xid_init 1 [0] (strBytes "b") = Except.error InitError.nulByteError ∧
    xid_init 1 [0] (strBytes "b") ≠ Except.error InitError.gtridNotPrintable := by
  refine ⟨by omega, by decide, by decide⟩

/-- C6 amended: with format_id in range and NUL-free component bytes,
construction fails with the too-long error when a component exceeds 64
bytes, with the printable-characters error when a byte lies outside
[0x20, 0x7f) (gtrid checked before bqual), and succeeds when both
components are at most 64 bytes of printable characters; a NUL byte
instead fails earlier with the argument-conversion TypeError. -/
theorem c6_component_checks (fid : Int) (g b : List Nat)
    (h0 : 0 ≤ fid) (h1 : fid ≤ 0x7fffffff)
    (hg0 : (0 : Nat) ∉ g) (hb0 : (0 : Nat) ∉ b)
    (hg256 : ∀ c ∈ g, c < 256) (hb256 : ∀ c ∈ b, c < 256) :
    (64 < g.length → xid_init fid g b = Except.error InitError.gtridTooLong) ∧
    (g.length ≤ 64 → (∃ c ∈ g, ¬ (32 ≤ c ∧ c < 127)) →
      xid_init fid g b = Except.error InitError.gtridNotPrintable) ∧
    (validComp g → 64 < b.length → xid_init fid g b = Except.error InitError.bqualTooLong) ∧
    (validComp g → b.length ≤ 64 → (∃ c ∈ b, ¬ (32 ≤ c ∧ c < 127)) →
      xid_init fid g b = Except.error InitError.bqualNotPrintable) ∧
    (validComp g → validComp b →
      xid_init fid g b =
        Except.ok { format_id := some fid, gtrid := g, bqual := some b,
                    prepared := none, owner := none, database := none }) := by
  have hmax : (0x7fffffff : Int) = 2 ^ 31 - 1 := by norm_num
  have hpre : ∀ P : Prop, (P → Except.error InitError.nulByteError =
      (Except.error InitError.nulByteError : Except InitError Xid)) := fun _ _ => rfl
  refine ⟨?_, ?_, ?_, ?_, fun hg hb => xid_init_ok fid g b h0 h1 hg hb⟩
  · intro hlen
    unfold xid_init
    rw [if_neg (by rw [hmax] at h1; push_neg; exact ⟨by omega, by omega⟩),
        if_neg (by simp [hg0, hb0]),
        if_neg (by rw [hmax] at h1; push_neg; exact ⟨h0, by omega⟩),
        if_pos hlen]
  · intro hlen ⟨c, hc, hbad⟩
    have hany : g.any charBad = true :=
      List.any_eq_true.mpr ⟨c, hc, charBad_eq_true (hg256 c hc) hbad⟩
    unfold xid_init
    rw [if_neg (by rw [hmax] at h1; push_neg; exact ⟨by omega, by omega⟩),
        if_neg (by simp [hg0, hb0]),
        if_neg (by rw [hmax] at h1; push_neg; exact ⟨h0, by omega⟩),
        if_neg (by omega), if_pos hany]
  · intro hg hlen
    obtain ⟨hgl, hgc⟩ := hg
    unfold xid_init
    rw [if_neg (by rw [hmax] at h1; push_neg; exact ⟨by omega, by omega⟩),
        if_neg (by simp [hg0, hb0]),
        if_neg (by rw [hmax] at h1; push_neg; exact ⟨h0, by omega⟩),
        if_neg (by omega : ¬ 64 < g.length),
        if_neg (by simp [any_charBad_false hgc]),
        if_pos hlen]
  · intro hg hlen ⟨c, hc, hbad⟩
    obtain ⟨hgl, hgc⟩ := hg
    have hany : b.any charBad = true :=
      List.any_eq_true.mpr ⟨c, hc, charBad_eq_true (hb256 c hc) hbad⟩
    unfold xid_init
    rw [if_neg (by rw [hmax] at h1; push_neg; exact ⟨by omega, by omega⟩),
        if_neg (by simp [hg0, hb0]),
        if_neg (by rw [hmax] at h1; push_neg; exact ⟨h0, by omega⟩),
        if_neg (by omega : ¬ 64 < g.length),
        if_neg (by simp [any_charBad_false hgc]),
        if_neg (by omega), if_pos hany]

/-- Witness for C6 amended: a 65-byte gtrid fails with the too-long
error. -/
theorem c6_component_checks_witness :
    xid_init 1 (List.replicate 65 97) (strBytes "b") =
      Except.error InitError.gtridTooLong := by
  refine (c6_component_checks 1 (List.replicate 65 97) (strBytes "b")
    (by norm_num) (by norm_num) (by decide) (by decide) (by decide) (by decide)).1
    (by simp)

lemma recover_rows_wf : ∀ recs : List (List (List Nat)), (∀ r ∈ recs, 4 ≤ r.length) →
    xid_recover_rows recs = some (recs.map rowXid) := by
  intro recs
  induction recs with
  | nil => intro _; rfl
  | cons rec rest ih =>
    intro h
    have h4 : 4 ≤ rec.length := h rec (by simp)
    match rec, h4 with
    | g :: p :: o :: d :: t, _ =>
      simp only [xid_recover_rows, List.get?]
      rw [ih (fun r hr => h r (by simp [hr]))]
      simp [rowXid]

lemma recover_rows_some : ∀ (recs : List (List (List Nat))) (xs : List Xid),
    xid_recover_rows recs = some xs →
    xs = recs.map rowXid ∧ ∀ r ∈ recs, 4 ≤ r.length := by
  intro recs
  induction recs with
  | nil =>
    intro xs h
    simp only [xid_recover_rows] at h
    cases h
    exact ⟨rfl, by simp⟩
  | cons rec rest ih =>
    intro xs h
    simp only [xid_recover_rows] at h
    rcases h0 : rec.get? 0 with _ | g <;> rw [h0] at h
    · cases h
    rcases h1 : rec.get? 1 with _ | p <;> rw [h1] at h
    · cases h
    rcases h2 : rec.get? 2 with _ | o <;> rw [h2] at h
    · cases h
    rcases h3 : rec.get? 3 with _ | d <;> rw [h3] at h
    · cases h
    rcases hr : xid_recover_rows rest with _ | ys <;> rw [hr] at h
    · cases h
    cases h
    obtain ⟨hys, hlen⟩ := ih ys hr
    have hrl : 4 ≤ rec.length := by
      rcases List.get?_eq_some.1 h3 with ⟨hlt, -⟩
      omega
    refine ⟨?_, ?_⟩
    · have hg : rec[0]?.getD [] = g := by
        rw [← List.get?_eq_getElem?, h0]; rfl
      have hp : rec[1]?.getD [] = p := by
        rw [← List.get?_eq_getElem?, h1]; rfl
      have ho : rec[2]?.getD [] = o := by
        rw [← List.get?_eq_getElem?, h2]; rfl
      have hd : rec[3]?.getD [] = d := by
        rw [← List.get?_eq_getElem?, h3]; rfl
      simp [rowXid, List.getD, hg, hp, ho, hd, hys]
    · intro r hrm
      rcases List.mem_cons.1 hrm with hrm2 | hrm2
      · simp [hrm2, hrl]
      · exact hlen r hrm2

/-- C7: when the cursor operations succeed and every fetched row has at
least four columns, xid_recover issues exactly the pg_prepared_xacts
query and returns, in row order, one Xid per row, built by decoding
column 0 and attaching columns 1, 2 and 3 as prepared, owner and
database. -/
theorem c7_recover_rows (c : Conn) (recs : List (List (List Nat)))
    (hc : c = ⟨true, true, some recs, true⟩)
    (hwf : ∀ r ∈ recs, 4 ≤ r.length) :
    (xid_recover c).2 = [REvent.cursor,
      REvent.execute (strBytes "SELECT gid, prepared, owner, database FROM pg_prepared_xacts;"),
      REvent.fetchall, REvent.close] ∧
    ∃ xs, (xid_recover c).1 = some xs ∧ xs.length = recs.length ∧
      ∀ i r, recs.get? i = some r →
        xs.get? i = some { xid_from_string (r.getD 0 []) with
                             prepared := some (r.getD 1 []), owner := some (r.getD 2 []),
                             database := some (r.getD 3 []) } := by
  subst hc
  refine ⟨rfl, List.map rowXid recs, ?_, by simp, ?_⟩
  · show xid_recover_rows recs = _
    exact recover_rows_wf recs hwf
  · intro i r hir
    rw [List.get?_eq_getElem?, List.getElem?_map, ← List.get?_eq_getElem?, hir]
    rfl

/-- Witness for C7 at the single example row from the specification. -/
theorem c7_recover_rows_witness :
    (xid_recover ⟨true, true,
        some [[strBytes "1_YWJj_eHl6", strBytes "2024-01-01", strBytes "alice",
               strBytes "db1"]], true⟩).2 = [REvent.cursor,
      REvent.execute (strBytes "SELECT gid, prepared, owner, database FROM pg_prepared_xacts;"),
      REvent.fetchall, REvent.close] ∧
    ∃ xs, (xid_recover ⟨true, true,
        some [[strBytes "1_YWJj_eHl6", strBytes "2024-01-01", strBytes "alice",
               strBytes "db1"]], true⟩).1 = some xs ∧
      xs.length = [[strBytes "1_YWJj_eHl6", strBytes "2024-01-01", strBytes "alice",
               strBytes "db1"]].length ∧
      ∀ i r, [[strBytes "1_YWJj_eHl6", strBytes "2024-01-01", strBytes "alice",
               strBytes "db1"]].get? i = some r →
        xs.get? i = some { xid_from_string (r.getD 0 []) with
                             prepared := some (r.getD 1 []), owner := some (r.getD 2 []),
                             database := some (r.getD 3 []) } :=
  c7_recover_rows _ _ rfl (by decide)

/-- C8 counterexample: when execute fails (the query-failure path),
xid_recover returns the failure without ever invoking close on the
cursor. -/
theorem c8_counterexample :
    (xid_recover ⟨true, false, some [], true⟩).1 = none ∧
    REvent.close ∉ (xid_recover ⟨true, false, some [], true⟩).2 := by
  refine ⟨rfl, by decide⟩

/-- C8 amended: close is invoked exactly on the executions in which
cursor creation, execute and fetchall all succeed (in particular it is
invoked before row processing, hence also on malformed-row failures);
on cursor, query or fetch failure the close method is never called. -/
theorem c8_close_paths (c : Conn) :
    REvent.close ∈ (xid_recover c).2 ↔
      (c.cursorOk = true ∧ c.executeOk = true ∧ c.fetchRes.isSome = true) := by
  obtain ⟨co, eo, fr, clo⟩ := c
  cases co <;> cases eo <;> rcases fr with _ | recs <;> cases clo <;>
    simp [xid_recover]

/-- Witness for C8 amended on a run where all cursor operations
succeed. -/
theorem c8_close_paths_witness :
    REvent.close ∈ (xid_recover ⟨true, true, some [], true⟩).2 :=
  (c8_close_paths ⟨true, true, some [], true⟩).mpr ⟨rfl, rfl, rfl⟩

/-- C9: every entry of the Xid member table is flagged read-only; the
Xids built by xid_from_string carry no recovery metadata; and the row
loop of xid_recover returns Xids whose triple is exactly that of
xid_from_string on the row gid (unchanged by the metadata attachment)
with the three metadata fields written exactly once, from the row
columns. -/
theorem c9_immutable_fields :
    (∀ m ∈ xid_members, m.2 = true) ∧
    (∀ s, (xid_from_string s).prepared = none ∧ (xid_from_string s).owner = none ∧
      (xid_from_string s).database = none) ∧
    (∀ recs xs, xid_recover_rows recs = some xs →
      ∀ i r, recs.get? i = some r →
        ∃ x, xs.get? i = some x ∧
          x.format_id = (xid_from_string (r.getD 0 [])).format_id ∧
          x.gtrid = (xid_from_string (r.getD 0 [])).gtrid ∧
          x.bqual = (xid_from_string (r.getD 0 [])).bqual ∧
          x.prepared = some (r.getD 1 []) ∧ x.owner = some (r.getD 2 []) ∧
          x.database = some (r.getD 3 [])) := by
  refine ⟨by decide, ?_, ?_⟩
  · intro s
    unfold xid_from_string
    rcases h : _xid_parse_string s with _ | x
    · exact ⟨rfl, rfl, rfl⟩
    · unfold _xid_parse_string at h
      rcases hm : xidMatch s with _ | ⟨ds, eg, eb⟩ <;> simp only [hm] at h
      · cases h
      rcases hg : b64decode eg with _ | g <;> simp only [hg] at h
      · cases h
      rcases hb : b64decode eb with _ | b <;> simp only [hb] at h
      · cases h
      rcases hi : xid_init (Int.ofNat (decVal ds)) g b with e | x2 <;> simp only [hi] at h
      · cases h
      cases h
      unfold xid_init at hi
      split_ifs at hi
      all_goals cases hi
      exact ⟨rfl, rfl, rfl⟩
  · intro recs xs hxs i r hir
    obtain ⟨hmap, -⟩ := recover_rows_some recs xs hxs
    subst hmap
    refine ⟨rowXid r, ?_, rfl, rfl, rfl, rfl, rfl, rfl⟩
    rw [List.get?_eq_getElem?, List.getElem?_map, ← List.get?_eq_getElem?, hir]
    rfl

/-- Witness for C9 on a concrete one-row recovery. -/
theorem c9_immutable_fields_witness :
    ∃ x, (List.map rowXid [[[49], [50], [51], [52]]]).get? 0 = some x ∧
      x.format_id = (xid_from_string (([[49], [50], [51], [52]] : List (List Nat)).getD 0 [])).format_id ∧
      x.gtrid = (xid_from_string (([[49], [50], [51], [52]] : List (List Nat)).getD 0 [])).gtrid ∧
      x.bqual = (xid_from_string (([[49], [50], [51], [52]] : List (List Nat)).getD 0 [])).bqual ∧
      x.prepared = some (([[49], [50], [51], [52]] : List (List Nat)).getD 1 []) ∧
      x.owner = some (([[49], [50], [51], [52]] : List (List Nat)).getD 2 []) ∧
      x.database = some (([[49], [50], [51], [52]] : List (List Nat)).getD 3 []) :=
  c9_immutable_fields.2.2 [[[49], [50], [51], [52]]]
    (List.map rowXid [[[49], [50], [51], [52]]]) (by decide) 0
    [[49], [50], [51], [52]] rfl

/-- C10: a Xid is a sequence of length 3; indices 0, 1, 2 return
format_id, gtrid and bqual, indices -1, -2, -3 return the same members
counted from the end, and every other index is an index error. -/
theorem c10_sequence (x : Xid) :
    xid_len x = 3 ∧
    xid_getitem x 0 = some x.pyFormatId ∧
    xid_getitem x 1 = some x.pyGtrid ∧
    xid_getitem x 2 = some x.pyBqual ∧
    xid_getitem x (-3) = some x.pyFormatId ∧
    xid_getitem x (-2) = some x.pyGtrid ∧
    xid_getitem x (-1) = some x.pyBqual ∧
    (∀ i : Int, 3 ≤ i ∨ i < -3 → xid_getitem x i = none) := by
  refine ⟨rfl, rfl, rfl, rfl, rfl, rfl, rfl, ?_⟩
  intro i hi
  have hne0 : ¬ ((if i < 0 then i + 3 else i) = 0) := by split <;> omega
  have hne1 : ¬ ((if i < 0 then i + 3 else i) = 1) := by split <;> omega
  have hne2 : ¬ ((if i < 0 then i + 3 else i) = 2) := by split <;> omega
  simp [xid_getitem, hne0, hne1, hne2]

/-- Witness for C10: index 5 and index -4 are index errors on a concrete
Xid. -/
theorem c10_sequence_witness :
    xid_getitem { format_id := some 1, gtrid := [97], bqual := some [98],
                  prepared := none, owner := none, database := none } 5 = none ∧
    xid_getitem { format_id := some 1, gtrid := [97], bqual := some [98],
                  prepared := none, owner := none, database := none } (-4) = none :=
  ⟨(c10_sequence _).2.2.2.2.2.2.2 5 (by omega),
   (c10_sequence _).2.2.2.2.2.2.2 (-4) (by omega)⟩
